import Mathlib

/-!
Shallow embedding of the Subscription & Billing Engine of
`src/app.py` (broadband subscription portal).

Modelling conventions:
* SQL `REAL` money columns are embedded as `ℚ` (the spec demands
  decimal-precision arithmetic with rounding only at the final amount).
* Calendar dates are embedded as `ℤ` day numbers; `end_date − today`
  in days is plain integer subtraction, exactly mirroring
  `(end_date - today).days` on Python `date` values.
* Python's `round(x, 2)` is embedded as `round2` below.  Python rounds
  ties to even; `round2` rounds ties up.  The two agree everywhere except
  at exact ties of the half-cent, which no claim depends on.
* A Python function body wrapped in `try/except` is embedded as an
  `Except Unit` computation plus a total wrapper applying the handler;
  the one reachable exception in `calculate_upgrade_price`
  (`ZeroDivisionError` when a plan's `validity_days` is 0) becomes an
  explicit `throw`.
* The SQLite store is embedded as a record of lists of rows (`DB`);
  each engine operation is a function `DB → result × DB`.
-/

namespace Broadband

/-- A row of the `plans` table.  Columns not read by the engine
(speed, data allowance, description, …) are omitted. -/
structure Plan where
  id : Nat
  name : String
  price : ℚ
  validity_days : ℤ
  deriving DecidableEq, Repr, Inhabited

/-- A row of the `subscriptions` table. -/
structure Subscription where
  id : Nat
  user_id : Nat
  plan_id : Nat
  start_date : ℤ
  end_date : ℤ
  status : String
  auto_renew : Nat
  cancelled_date : Option ℤ
  renewal_count : Nat
  deriving DecidableEq, Repr, Inhabited

/-- The joined row returned by `get_user_active_subscription`:
subscription columns plus the joined plan columns the engine reads
(`p.price`, `p.validity_days`). -/
structure ActiveSub where
  id : Nat
  user_id : Nat
  plan_id : Nat
  start_date : ℤ
  end_date : ℤ
  price : ℚ
  validity_days : ℤ
  deriving DecidableEq, Repr, Inhabited

/-- Python's `round(x, 2)`: round to 2 decimal places
(ties rounded up here; see the header note). -/
def round2 (q : ℚ) : ℚ := (round (100 * q) : ℤ) / 100

/-- The body of `calculate_upgrade_price` (the code inside its `try`).
A `ZeroDivisionError` at either per-day division is an explicit
`throw ()`; both divisions happen only on the `remaining_days > 0`
path, exactly as in the source. -/
def calcUpgradeBody (current_sub : Option ActiveSub) (new_plan : Plan)
    (today : ℤ) : Except Unit (ℚ × String) :=
  match current_sub with
  | none => .ok (new_plan.price, "New subscription")
  | some cur =>
    let remaining_days : ℤ := cur.end_date - today
    if remaining_days ≤ 0 then
      .ok (new_plan.price, "Current plan expired, full price")
    else if cur.validity_days = 0 ∨ new_plan.validity_days = 0 then
      .error ()
    else
      let current_per_day : ℚ := cur.price / (cur.validity_days : ℚ)
      let new_per_day : ℚ := new_plan.price / (new_plan.validity_days : ℚ)
      let remaining_value : ℚ := current_per_day * (remaining_days : ℚ)
      let new_plan_cost : ℚ := new_per_day * (remaining_days : ℚ)
      let amount_to_pay : ℚ := new_plan_cost - remaining_value
      if 0 < amount_to_pay then
        .ok (round2 amount_to_pay,
          "Upgrade for " ++ toString remaining_days ++ " days")
      else
        .ok (0, "Downgrade - ₹" ++ toString |round2 amount_to_pay| ++
          " credit (refund not applicable)")

/-- `calculate_upgrade_price(current_sub, new_plan)` from `src/app.py`:
the `try` body with the `except` fallback returning the new plan's
full price. -/
def calculate_upgrade_price (current_sub : Option ActiveSub)
    (new_plan : Plan) (today : ℤ) : ℚ × String :=
  match calcUpgradeBody current_sub new_plan today with
  | .ok r => r
  | .error _ => (new_plan.price, "Error calculating - using full price")

/-- The net amount the source computes on the `remaining_days > 0` path:
`new_plan_cost - remaining_value`, i.e. the new per-day rate times the
remaining days minus the current per-day rate times the remaining days,
with neither per-day rate rounded. -/
def proratedAmount (cur : ActiveSub) (new_plan : Plan) (today : ℤ) : ℚ :=
  new_plan.price / (new_plan.validity_days : ℚ) * ((cur.end_date - today : ℤ) : ℚ) -
    cur.price / (cur.validity_days : ℚ) * ((cur.end_date - today : ℤ) : ℚ)

/-- The worked example of the spec: a 30-day plan priced 300 with 10
remaining days (today being day 0). -/
def exSub300 : ActiveSub :=
  { id := 1, user_id := 1, plan_id := 1, start_date := -20, end_date := 10,
    price := 300, validity_days := 30 }

/-- A 30-day plan priced 600. -/
def exPlan600 : Plan := { id := 2, name := "P600", price := 600, validity_days := 30 }

/-- A 30-day plan priced 300. -/
def exPlan300 : Plan := { id := 3, name := "P300", price := 300, validity_days := 30 }

/-- The downgrade example of the spec: a 30-day plan priced 600 with 10
remaining days. -/
def exSub600 : ActiveSub := { exSub300 with price := 600 }

/-- A subscription whose plan has `validity_days = 0`, making the per-day
division raise in the source. -/
def exSubZeroValidity : ActiveSub := { exSub300 with validity_days := 0 }

/-- A row of the `users` table.  Only the columns the engine reads are
kept (`id` and `role`; roles in the app are `user`, `admin` and, after a
soft delete, `archived`). -/
structure User where
  id : Nat
  role : String
  deriving DecidableEq, Repr, Inhabited

/-- A row of the `referrals` table. -/
structure Referral where
  id : Nat
  referrer_user_id : Nat
  referred_email : String
  status : String
  reward_amount : ℚ
  created_date : ℤ
  deriving DecidableEq, Repr, Inhabited

/-- A row of the `notifications` table. -/
structure Notification where
  id : Nat
  sender_id : Nat
  recipient_id : Nat
  title : String
  message : String
  notification_type : String
  is_read : Nat
  created_date : ℤ
  target_type : String
  deriving DecidableEq, Repr, Inhabited

/-- The SQLite store: one list of rows per table, plus the autoincrement
counters.  Tables the engine never touches (payments, usage, tickets,
speed tests, wifi credentials, meta) are omitted. -/
structure DB where
  plans : List Plan
  subscriptions : List Subscription
  users : List User
  referrals : List Referral
  notifications : List Notification
  nextSubId : Nat
  nextReferralId : Nat
  nextNotifId : Nat
  deriving DecidableEq, Repr, Inhabited

/-- `get_plan(plan_id)`: `SELECT * FROM plans WHERE id = ?`. -/
def get_plan (db : DB) (plan_id : Nat) : Option Plan :=
  db.plans.find? (fun p => p.id == plan_id)

/-- The `WHERE s.user_id = ? AND s.status = 'active'` condition of
`get_user_active_subscription`. -/
def isActiveOf (uid : Nat) (s : Subscription) : Bool :=
  s.user_id == uid && s.status == "active"

/-- The customer's subscription rows with status `active`. -/
def activeSubsOf (db : DB) (uid : Nat) : List Subscription :=
  db.subscriptions.filter (isActiveOf uid)

/-- The joined view built by `get_user_active_subscription`. -/
def joinPlan (db : DB) (s : Subscription) : Option ActiveSub :=
  (get_plan db s.plan_id).map (fun p =>
    { id := s.id, user_id := s.user_id, plan_id := s.plan_id,
      start_date := s.start_date, end_date := s.end_date,
      price := p.price, validity_days := p.validity_days })

/-- The rows of the query in `get_user_active_subscription`:
active subscriptions of the customer `JOIN plans ON s.plan_id = p.id`
(a row with a dangling `plan_id` produces no joined row). -/
def activeJoinedRows (db : DB) (uid : Nat) : List ActiveSub :=
  (activeSubsOf db uid).filterMap (joinPlan db)

/-- `ORDER BY s.start_date DESC LIMIT 1`: keep the row with the largest
start date (on equal start dates SQLite's order is unspecified; the
model keeps the earlier row). -/
def pickLatest : Option ActiveSub → ActiveSub → Option ActiveSub
  | none, v => some v
  | some w, v => if w.start_date < v.start_date then some v else some w

/-- `get_user_active_subscription(user_id)` from `src/app.py`. -/
def get_user_active_subscription (db : DB) (uid : Nat) : Option ActiveSub :=
  (activeJoinedRows db uid).foldl pickLatest none

/-- The row update of
`UPDATE subscriptions SET status = 'cancelled' WHERE user_id = ? AND status = 'active'`. -/
def cancelActiveOf (uid : Nat) (s : Subscription) : Subscription :=
  if s.user_id == uid && s.status == "active" then { s with status := "cancelled" }
  else s

/-- `subscribe_to_plan(user_id, plan_id, auto_renew)` from `src/app.py`.
`today` is the date component of `datetime.utcnow()`. -/
def subscribe_to_plan (db : DB) (user_id plan_id : Nat) (today : ℤ)
    (auto_renew : Nat := 1) : (Bool × String) × DB :=
  match get_plan db plan_id with
  | none => ((false, "Plan not found"), db)
  | some plan =>
    let cancelled := db.subscriptions.map (cancelActiveOf user_id)
    let newSub : Subscription :=
      { id := db.nextSubId, user_id := user_id, plan_id := plan_id,
        start_date := today, end_date := today + plan.validity_days,
        status := "active", auto_renew := auto_renew,
        cancelled_date := none, renewal_count := 0 }
    ((true, "Subscribed successfully"),
     { db with subscriptions := cancelled ++ [newSub],
               nextSubId := db.nextSubId + 1 })

/-- The row update of
`UPDATE subscriptions SET status = 'cancelled', cancelled_date = ? WHERE id = ?`. -/
def cancelById (sid : Nat) (cd : ℤ) (s : Subscription) : Subscription :=
  if s.id == sid then { s with status := "cancelled", cancelled_date := some cd }
  else s

/-- `upgrade_plan(user_id, new_plan_id)` from `src/app.py`. -/
def upgrade_plan (db : DB) (user_id new_plan_id : Nat) (today : ℤ) :
    (Bool × String) × DB :=
  let current_sub := get_user_active_subscription db user_id
  match get_plan db new_plan_id with
  | none => ((false, "Plan not found"), db)
  | some new_plan =>
    let ad := calculate_upgrade_price current_sub new_plan today
    let afterCancel :=
      match current_sub with
      | some cur => db.subscriptions.map (cancelById cur.id today)
      | none => db.subscriptions
    let endDate :=
      match current_sub with
      | some cur =>
        if 0 < cur.end_date - today then today + (cur.end_date - today)
        else today + new_plan.validity_days
      | none => today + new_plan.validity_days
    let newSub : Subscription :=
      { id := db.nextSubId, user_id := user_id, plan_id := new_plan_id,
        start_date := today, end_date := endDate, status := "active",
        auto_renew := 1, cancelled_date := none, renewal_count := 0 }
    ((true, ad.2 ++ " - Amount: ₹" ++ toString ad.1),
     { db with subscriptions := afterCancel ++ [newSub],
               nextSubId := db.nextSubId + 1 })

/-- `create_referral(referrer_user_id, referred_email)` from `src/app.py`:
the reward amount is the literal `100.0` at creation time. -/
def create_referral (db : DB) (referrer_user_id : Nat) (referred_email : String)
    (today : ℤ) : (Bool × String) × DB :=
  let r : Referral :=
    { id := db.nextReferralId, referrer_user_id := referrer_user_id,
      referred_email := referred_email, status := "pending",
      reward_amount := 100, created_date := today }
  ((true, "Referral created successfully"),
   { db with referrals := db.referrals ++ [r],
             nextReferralId := db.nextReferralId + 1 })

/-- `get_user_referrals(user_id)`:
`SELECT * FROM referrals WHERE referrer_user_id = ?` (the
`ORDER BY created_date DESC` affects presentation order only and is not
modelled). -/
def get_user_referrals (db : DB) (uid : Nat) : List Referral :=
  db.referrals.filter (fun r => r.referrer_user_id == uid)

/-- `read_all_users(role_filter)`: the role filter applies when a role is
given and is not `"All"`.  The `search_term` branch is not modelled: the
engine caller (`send_notification`) always leaves it at its default `''`.
`ORDER BY id DESC` affects presentation order only and is not modelled. -/
def read_all_users (db : DB) (role_filter : Option String) : List User :=
  db.users.filter (fun u =>
    match role_filter with
    | some rf => if rf == "All" then true else u.role == rf
    | none => true)

/-- One inserted `notifications` row. -/
def mkNotif (nid sender rid : Nat) (title message ntype : String) (d : ℤ)
    (ttype : String) : Notification :=
  { id := nid, sender_id := sender, recipient_id := rid, title := title,
    message := message, notification_type := ntype, is_read := 0,
    created_date := d, target_type := ttype }

/-- The insert loop of `send_notification`: one row per recipient,
counting successful inserts. -/
def insertNotifRows (sender : Nat) (title message ntype : String) (d : ℤ)
    (ttype : String) : List Nat → Nat × DB → Nat × DB
  | [], acc => acc
  | rid :: rest, (cnt, db) =>
    insertNotifRows sender title message ntype d ttype rest
      (cnt + 1,
       { db with
           notifications := db.notifications ++
             [mkNotif db.nextNotifId sender rid title message ntype d ttype],
           nextNotifId := db.nextNotifId + 1 })

/-- `send_notification(sender_id, title, message, notification_type,
recipient_ids, target_type)` from `src/app.py`.  When `target_type` is
`'all'` the recipient set is `read_all_users(role_filter='user')`. -/
def send_notification (db : DB) (sender_id : Nat) (title message : String)
    (notification_type : String) (recipient_ids : Option (List Nat))
    (target_type : String) (d : ℤ) : (Bool × String) × DB :=
  let res :=
    if target_type == "all" then
      insertNotifRows sender_id title message notification_type d "all"
        ((read_all_users db (some "user")).map User.id) (0, db)
    else
      match recipient_ids with
      | some rids =>
        insertNotifRows sender_id title message notification_type d "specific"
          rids (0, db)
      | none => (0, db)
  ((true, "Notification sent successfully to " ++ toString res.1 ++ " users"),
   res.2)

/-- `mark_notification_as_read(notification_id)`:
`UPDATE notifications SET is_read = 1 WHERE id = ?`. -/
def mark_notification_as_read (db : DB) (nid : Nat) : DB :=
  { db with
      notifications := db.notifications.map (fun n =>
        if n.id == nid then { n with is_read := 1 } else n) }

/-- One engine call, with its arguments. -/
inductive Op where
  | subscribe (user_id plan_id : Nat) (today : ℤ) (auto_renew : Nat)
  | upgrade (user_id new_plan_id : Nat) (today : ℤ)
  | createReferral (referrer_user_id : Nat) (referred_email : String) (today : ℤ)
  | sendNotif (sender_id : Nat) (title message ntype : String)
      (recipient_ids : Option (List Nat)) (target_type : String) (d : ℤ)
  | markRead (nid : Nat)
  deriving DecidableEq, Repr

/-- The state transition of one engine call. -/
def applyOp (db : DB) : Op → DB
  | .subscribe u p t a => (subscribe_to_plan db u p t a).2
  | .upgrade u p t => (upgrade_plan db u p t).2
  | .createReferral r e t => (create_referral db r e t).2
  | .sendNotif s ti m nt rids tt d => (send_notification db s ti m nt rids tt d).2
  | .markRead n => mark_notification_as_read db n

/-- A finite sequence of engine calls. -/
def applyOps (db : DB) (ops : List Op) : DB := ops.foldl applyOp db

/-- The per-customer state the at-most-one-active invariant needs: the
customer has at most one `active` subscription row, and each of their
`active` rows resolves its plan (the schema's
`FOREIGN KEY(plan_id) REFERENCES plans(id)`; the app never deletes plan
rows and only inserts subscriptions after a successful plan lookup, so
every reachable store satisfies this). -/
def CustomerInv (db : DB) (uid : Nat) : Prop :=
  (activeSubsOf db uid).length ≤ 1 ∧
    ∀ s ∈ activeSubsOf db uid, (get_plan db s.plan_id).isSome

instance (db : DB) (uid : Nat) : Decidable (CustomerInv db uid) := by
  unfold CustomerInv; infer_instance

/-- The rows the insert loop of `send_notification` materialises,
with the successive autoincrement ids. -/
def notifRowsFrom (sender : Nat) (title message ntype : String) (d : ℤ)
    (ttype : String) : Nat → List Nat → List Notification
  | _, [] => []
  | nid, rid :: rest =>
    mkNotif nid sender rid title message ntype d ttype ::
      notifRowsFrom sender title message ntype d ttype (nid + 1) rest

/-- A catalog plan row for concrete stores. -/
def exPlanRow : Plan :=
  { id := 1, name := "Smart 1GB Daily", price := 299, validity_days := 28 }

/-- A pending referral row for concrete stores. -/
def exReferral : Referral :=
  { id := 1, referrer_user_id := 1, referred_email := "friend@example.com",
    status := "pending", reward_amount := 100, created_date := 0 }

/-- A concrete store: three plans, four users (two customers, one admin,
one archived), one referral, no subscriptions. -/
def exDB : DB :=
  { plans := [exPlanRow, exPlan600, exPlan300],
    subscriptions := [],
    users := [⟨1, "user"⟩, ⟨2, "admin"⟩, ⟨3, "user"⟩, ⟨4, "archived"⟩],
    referrals := [exReferral],
    notifications := [],
    nextSubId := 1, nextReferralId := 2, nextNotifId := 1 }

/-- An active subscription row of customer 1 on plan 1, ending at day 10. -/
def exSubRow : Subscription :=
  { id := 1, user_id := 1, plan_id := 1, start_date := -20, end_date := 10,
    status := "active", auto_renew := 1, cancelled_date := none,
    renewal_count := 0 }

/-- `exDB` with customer 1 actively subscribed to plan 1. -/
def exDB2 : DB := { exDB with subscriptions := [exSubRow], nextSubId := 2 }

/-- The joined view of `exSubRow` with its plan `exPlanRow`. -/
def exView : ActiveSub :=
  { id := 1, user_id := 1, plan_id := 1, start_date := -20, end_date := 10,
    price := 299, validity_days := 28 }

/-- A sample call sequence: an upgrade followed by a fresh subscribe. -/
def exOps : List Op := [.upgrade 1 2 0, .subscribe 1 3 40 1]

/-- A sample call sequence that also creates a new referral and sends a
broadcast. -/
def exOps9 : List Op :=
  [.createReferral 1 "other@example.com" 5, .subscribe 1 1 5 1,
   .sendNotif 2 "Hello" "Welcome" "general" none "all" 6, .markRead 1]

theorem round2_nonneg {q : ℚ} (h : 0 < q) : 0 ≤ round2 q := by
  unfold round2
  apply div_nonneg _ (by norm_num)
  have h0 : (0 : ℤ) ≤ round (100 * q) := by
    rw [round_eq]
    exact Int.le_floor.mpr (by push_cast; linarith)
  exact_mod_cast h0

/-- C6: when the current subscription's end date is today or earlier
(`remaining_days ≤ 0`), `calculate_upgrade_price` returns the new plan's
full price, with a rationale stating the current plan has expired. -/
theorem expired_full_price (cur : ActiveSub) (new_plan : Plan) (today : ℤ)
    (h : cur.end_date - today ≤ 0) :
    calculate_upgrade_price (some cur) new_plan today =
      (new_plan.price, "Current plan expired, full price") := by
  simp only [calculate_upgrade_price, calcUpgradeBody, if_pos h]

theorem expired_full_price_witness :
    exSub300.end_date - 20 ≤ 0 ∧
    calculate_upgrade_price (some exSub300) exPlan600 20 =
      (exPlan600.price, "Current plan expired, full price") :=
  ⟨by decide, expired_full_price exSub300 exPlan600 20 (by decide)⟩

/-- C2: on the `remaining_days > 0` path, when the prorated difference
(new per-day rate minus current per-day rate, each price over
validity days and unrounded, times the remaining days) is positive,
`calculate_upgrade_price` returns that difference rounded to 2 decimal
places with a rationale naming the number of remaining days. -/
theorem upgrade_positive_prorated_amount (cur : ActiveSub) (new_plan : Plan)
    (today : ℤ) (hrem : 0 < cur.end_date - today)
    (hcv : cur.validity_days ≠ 0) (hnv : new_plan.validity_days ≠ 0)
    (hpos : 0 < proratedAmount cur new_plan today) :
    calculate_upgrade_price (some cur) new_plan today =
      (round2 (proratedAmount cur new_plan today),
       "Upgrade for " ++ toString (cur.end_date - today) ++ " days") := by
  have h1 : ¬ (cur.end_date - today ≤ 0) := not_le.mpr hrem
  have h2 : ¬ (cur.validity_days = 0 ∨ new_plan.validity_days = 0) := by
    rintro (h | h)
    · exact hcv h
    · exact hnv h
  have hpos2 : 0 < new_plan.price / (new_plan.validity_days : ℚ) *
      ((cur.end_date - today : ℤ) : ℚ) -
      cur.price / (cur.validity_days : ℚ) * ((cur.end_date - today : ℤ) : ℚ) := hpos
  simp only [calculate_upgrade_price, calcUpgradeBody, if_neg h1, if_neg h2,
    if_pos hpos2, proratedAmount]

/-- The spec's worked example: 30-day plan priced 300 with 10 remaining
days switched to a 30-day plan priced 600 yields amount 100 and a
rationale mentioning 10 days. -/
theorem upgrade_positive_prorated_amount_witness :
    (0 < exSub300.end_date - 0 ∧ exSub300.validity_days ≠ 0 ∧
      exPlan600.validity_days ≠ 0 ∧ 0 < proratedAmount exSub300 exPlan600 0) ∧
    calculate_upgrade_price (some exSub300) exPlan600 0 =
      (100, "Upgrade for 10 days") := by
  have hpos : 0 < proratedAmount exSub300 exPlan600 0 := by
    norm_num [proratedAmount, exSub300, exPlan600]
  refine ⟨⟨by decide, by decide, by decide, hpos⟩, ?_⟩
  rw [upgrade_positive_prorated_amount exSub300 exPlan600 0 (by decide)
    (by decide) (by decide) hpos]
  norm_num [proratedAmount, exSub300, exPlan600, round2, round_eq]
  rfl

/-- C3: on the `remaining_days > 0` path, a prorated difference that is
zero or negative yields amount exactly 0 with the rationale noting the
non-refundable credit; and (for any input whose new plan satisfies the
catalog invariant `price ≥ 0`) the returned amount is never negative. -/
theorem downgrade_zero_and_nonneg :
    (∀ (cur : ActiveSub) (new_plan : Plan) (today : ℤ),
      0 < cur.end_date - today → cur.validity_days ≠ 0 →
      new_plan.validity_days ≠ 0 → proratedAmount cur new_plan today ≤ 0 →
      calculate_upgrade_price (some cur) new_plan today =
        (0, "Downgrade - ₹" ++
          toString |round2 (proratedAmount cur new_plan today)| ++
          " credit (refund not applicable)")) ∧
    ∀ (cur : Option ActiveSub) (new_plan : Plan) (today : ℤ),
      0 ≤ new_plan.price → 0 ≤ (calculate_upgrade_price cur new_plan today).1 := by
  constructor
  · intro cur new_plan today hrem hcv hnv hle
    have h1 : ¬ (cur.end_date - today ≤ 0) := not_le.mpr hrem
    have h2 : ¬ (cur.validity_days = 0 ∨ new_plan.validity_days = 0) := by
      rintro (h | h)
      · exact hcv h
      · exact hnv h
    have h3 : ¬ (0 < new_plan.price / (new_plan.validity_days : ℚ) *
        ((cur.end_date - today : ℤ) : ℚ) -
        cur.price / (cur.validity_days : ℚ) * ((cur.end_date - today : ℤ) : ℚ)) :=
      not_lt.mpr hle
    simp only [calculate_upgrade_price, calcUpgradeBody, if_neg h1, if_neg h2,
      if_neg h3, proratedAmount]
  · intro cur new_plan today hp
    match cur with
    | none => exact hp
    | some c =>
      by_cases h1 : c.end_date - today ≤ 0
      · simp only [calculate_upgrade_price, calcUpgradeBody, if_pos h1]
        exact hp
      · by_cases h2 : c.validity_days = 0 ∨ new_plan.validity_days = 0
        · simp only [calculate_upgrade_price, calcUpgradeBody, if_neg h1,
            if_pos h2]
          exact hp
        · by_cases h3 : 0 < new_plan.price / (new_plan.validity_days : ℚ) *
              ((c.end_date - today : ℤ) : ℚ) -
              c.price / (c.validity_days : ℚ) * ((c.end_date - today : ℤ) : ℚ)
          · simp only [calculate_upgrade_price, calcUpgradeBody, if_neg h1,
              if_neg h2, if_pos h3]
            exact round2_nonneg h3
          · simp only [calculate_upgrade_price, calcUpgradeBody, if_neg h1,
              if_neg h2, if_neg h3]
            exact le_refl 0

/-- The spec's downgrade example: 600 for 30 days with 10 days left,
switching to 300 for 30 days, charges 0 and reports the credit. -/
theorem downgrade_zero_and_nonneg_witness :
    (0 < exSub600.end_date - 0 ∧ exSub600.validity_days ≠ 0 ∧
      exPlan300.validity_days ≠ 0 ∧ proratedAmount exSub600 exPlan300 0 ≤ 0) ∧
    calculate_upgrade_price (some exSub600) exPlan300 0 =
      (0, "Downgrade - ₹100 credit (refund not applicable)") ∧
    0 ≤ (calculate_upgrade_price (some exSub600) exPlan300 0).1 := by
  have hle : proratedAmount exSub600 exPlan300 0 ≤ 0 := by
    norm_num [proratedAmount, exSub600, exSub300, exPlan300]
  refine ⟨⟨by decide, by decide, by decide, hle⟩, ?_, ?_⟩
  · rw [downgrade_zero_and_nonneg.1 exSub600 exPlan300 0 (by decide) (by decide)
      (by decide) hle]
    norm_num [proratedAmount, exSub600, exSub300, exPlan300, round2, round_eq]
    rfl
  · exact downgrade_zero_and_nonneg.2 (some exSub600) exPlan300 0 (by decide)

/-- C7 counterexample: with no current subscription the code returns the
rationale string `"New subscription"` (capital N), so the claimed exact
equality with `(plan.price, "new subscription")` fails on a concrete
plan. -/
theorem new_subscription_rationale_cex :
    calculate_upgrade_price none exPlan300 0 ≠ (exPlan300.price, "new subscription") := by
  decide

/-- C7 (amended): with no current active subscription the calculator
returns the plan's full price and the rationale `"New subscription"`. -/
theorem new_subscription_full_price (new_plan : Plan) (today : ℤ) :
    calculate_upgrade_price none new_plan today =
      (new_plan.price, "New subscription") := rfl

/-- C10: `calculate_upgrade_price` is total; whenever its `try` body
fails it returns the new plan's full price with the rationale
`"Error calculating - using full price"`, and the body fails exactly
when there is a current subscription with positive remaining days whose
per-day division is undefined (`validity_days = 0` on either plan). -/
theorem calc_error_fallback :
    (∀ (cur : Option ActiveSub) (new_plan : Plan) (today : ℤ),
      calcUpgradeBody cur new_plan today = .error () →
      calculate_upgrade_price cur new_plan today =
        (new_plan.price, "Error calculating - using full price")) ∧
    ∀ (cur : Option ActiveSub) (new_plan : Plan) (today : ℤ),
      calcUpgradeBody cur new_plan today = .error () ↔
        ∃ c, cur = some c ∧ 0 < c.end_date - today ∧
          (c.validity_days = 0 ∨ new_plan.validity_days = 0) := by
  constructor
  · intro cur new_plan today h
    simp only [calculate_upgrade_price, h]
  · intro cur new_plan today
    constructor
    · intro h
      match cur with
      | none => exact Except.noConfusion h
      | some c =>
        refine ⟨c, rfl, ?_⟩
        by_cases h1 : c.end_date - today ≤ 0
        · simp only [calcUpgradeBody, if_pos h1] at h
          exact Except.noConfusion h
        · by_cases h2 : c.validity_days = 0 ∨ new_plan.validity_days = 0
          · exact ⟨lt_of_not_le h1, h2⟩
          · exfalso
            by_cases h3 : 0 < new_plan.price / (new_plan.validity_days : ℚ) *
                ((c.end_date - today : ℤ) : ℚ) -
                c.price / (c.validity_days : ℚ) * ((c.end_date - today : ℤ) : ℚ)
            · simp only [calcUpgradeBody, if_neg h1, if_neg h2, if_pos h3] at h
              exact Except.noConfusion h
            · simp only [calcUpgradeBody, if_neg h1, if_neg h2, if_neg h3] at h
              exact Except.noConfusion h
    · rintro ⟨c, rfl, hrem, hdiv⟩
      simp only [calcUpgradeBody, if_neg (not_le.mpr hrem), if_pos hdiv]

theorem calc_error_fallback_witness :
    calcUpgradeBody (some exSubZeroValidity) exPlan600 0 = .error () ∧
    calculate_upgrade_price (some exSubZeroValidity) exPlan600 0 =
      (exPlan600.price, "Error calculating - using full price") :=
  ⟨rfl, calc_error_fallback.1 (some exSubZeroValidity) exPlan600 0 rfl⟩

/-- C5: when `plan_id` matches no stored plan, both `subscribe_to_plan`
and `upgrade_plan` fail with the plan-not-found message and return the
store unchanged: no cancellation and no insertion happen. -/
theorem plan_not_found_no_write (db : DB) (uid pid : Nat) (today : ℤ) (ar : Nat)
    (h : get_plan db pid = none) :
    subscribe_to_plan db uid pid today ar = ((false, "Plan not found"), db) ∧
    upgrade_plan db uid pid today = ((false, "Plan not found"), db) := by
  constructor
  · simp only [subscribe_to_plan, h]
  · simp only [upgrade_plan, h]

theorem plan_not_found_no_write_witness :
    get_plan exDB2 99 = none ∧
    subscribe_to_plan exDB2 1 99 0 1 = ((false, "Plan not found"), exDB2) ∧
    upgrade_plan exDB2 1 99 0 = ((false, "Plan not found"), exDB2) :=
  ⟨by decide, (plan_not_found_no_write exDB2 1 99 0 1 (by decide)).1,
    (plan_not_found_no_write exDB2 1 99 0 1 (by decide)).2⟩

/-- C4: the subscription `upgrade_plan` inserts starts today and keeps
the old subscription's end date when the old period still has remaining
days; with no current active subscription, or with no remaining days, it
ends a full new validity period from today. -/
theorem upgrade_end_date (db : DB) (uid pid : Nat) (today : ℤ) (p : Plan)
    (hp : get_plan db pid = some p) :
    (∀ cur, get_user_active_subscription db uid = some cur →
      0 < cur.end_date - today →
      ∃ s, ((upgrade_plan db uid pid today).2).subscriptions.getLast? = some s ∧
        s.start_date = today ∧ s.status = "active" ∧
        s.end_date = cur.end_date) ∧
    (∀ cur, get_user_active_subscription db uid = some cur →
      cur.end_date - today ≤ 0 →
      ∃ s, ((upgrade_plan db uid pid today).2).subscriptions.getLast? = some s ∧
        s.start_date = today ∧ s.status = "active" ∧
        s.end_date = today + p.validity_days) ∧
    (get_user_active_subscription db uid = none →
      ∃ s, ((upgrade_plan db uid pid today).2).subscriptions.getLast? = some s ∧
        s.start_date = today ∧ s.status = "active" ∧
        s.end_date = today + p.validity_days) := by
  refine ⟨?_, ?_, ?_⟩
  · intro cur hcur hrem
    simp only [upgrade_plan, hp, hcur, if_pos hrem]
    refine ⟨_, List.getLast?_concat _, rfl, rfl, ?_⟩
    show today + (cur.end_date - today) = cur.end_date
    omega
  · intro cur hcur hrem
    simp only [upgrade_plan, hp, hcur, if_neg (not_lt.mpr hrem)]
    exact ⟨_, List.getLast?_concat _, rfl, rfl, rfl⟩
  · intro hcur
    simp only [upgrade_plan, hp, hcur]
    exact ⟨_, List.getLast?_concat _, rfl, rfl, rfl⟩

theorem upgrade_end_date_witness :
    (get_plan exDB2 2 = some exPlan600 ∧
      get_user_active_subscription exDB2 1 = some exView ∧
      0 < exView.end_date - (0:ℤ)) ∧
    ∃ s, ((upgrade_plan exDB2 1 2 0).2).subscriptions.getLast? = some s ∧
      s.start_date = 0 ∧ s.status = "active" ∧ s.end_date = exView.end_date :=
  ⟨⟨by decide, by decide, by decide⟩,
    (upgrade_end_date exDB2 1 2 0 exPlan600 (by decide)).1 exView (by decide)
      (by decide)⟩

theorem insertNotifRows_spec (sender : Nat) (title message ntype : String)
    (d : ℤ) (ttype : String) (rids : List Nat) :
    ∀ (cnt : Nat) (db : DB),
      insertNotifRows sender title message ntype d ttype rids (cnt, db) =
        (cnt + rids.length,
         { db with
             notifications := db.notifications ++
               notifRowsFrom sender title message ntype d ttype db.nextNotifId rids,
             nextNotifId := db.nextNotifId + rids.length }) := by
  induction rids with
  | nil =>
    intro cnt db
    simp [insertNotifRows, notifRowsFrom]
  | cons rid rest ih =>
    intro cnt db
    simp only [insertNotifRows, notifRowsFrom]
    rw [ih]
    have h1 : cnt + 1 + rest.length = cnt + (rest.length + 1) := by omega
    have h2 : db.nextNotifId + 1 + rest.length =
        db.nextNotifId + (rest.length + 1) := by omega
    simp [List.append_assoc, h1, h2]

theorem notifRowsFrom_map_recipient (sender : Nat) (title message ntype : String)
    (d : ℤ) (ttype : String) (rids : List Nat) :
    ∀ nid, (notifRowsFrom sender title message ntype d ttype nid rids).map
      Notification.recipient_id = rids := by
  induction rids with
  | nil => intro nid; rfl
  | cons rid rest ih =>
    intro nid
    simp only [notifRowsFrom, List.map_cons, ih]
    rfl

theorem notifRowsFrom_fields (sender : Nat) (title message ntype : String)
    (d : ℤ) (ttype : String) (rids : List Nat) :
    ∀ nid, ∀ n ∈ notifRowsFrom sender title message ntype d ttype nid rids,
      n.title = title ∧ n.message = message ∧ n.is_read = 0 := by
  induction rids with
  | nil => intro nid n hn; exact absurd hn (List.not_mem_nil n)
  | cons rid rest ih =>
    intro nid n hn
    rcases List.mem_cons.mp hn with h | h
    · subst h; exact ⟨rfl, rfl, rfl⟩
    · exact ih (nid + 1) n h

/-- C8: a broadcast send (`target_type = 'all'`) appends exactly one
unread notification row per user whose role is `user` (the non-archived
customers: archived customers carry role `archived`), all rows sharing
the given title and message, and reports the count of created rows.  The
recipients are exactly the customer ids present at send time, so a
customer added later receives no row. -/
theorem broadcast_one_row_per_customer (db : DB) (sender : Nat)
    (title message ntype : String) (d : ℤ) :
    ∃ rows,
      ((send_notification db sender title message ntype none "all" d).2).notifications =
        db.notifications ++ rows ∧
      rows.length = (db.users.filter (fun u => u.role == "user")).length ∧
      rows.map Notification.recipient_id =
        (db.users.filter (fun u => u.role == "user")).map User.id ∧
      (∀ n ∈ rows, n.title = title ∧ n.message = message ∧ n.is_read = 0) ∧
      (send_notification db sender title message ntype none "all" d).1 =
        (true, "Notification sent successfully to " ++
          toString (db.users.filter (fun u => u.role == "user")).length ++
          " users") := by
  have hread : read_all_users db (some "user") =
      db.users.filter (fun u => u.role == "user") := by
    simp [read_all_users]
  refine ⟨notifRowsFrom sender title message ntype d "all" db.nextNotifId
      ((db.users.filter (fun u => u.role == "user")).map User.id), ?_, ?_, ?_, ?_, ?_⟩
  · simp [send_notification, hread, insertNotifRows_spec]
  · have h := congrArg List.length (notifRowsFrom_map_recipient sender title
      message ntype d "all" ((db.users.filter (fun u => u.role == "user")).map
        User.id) db.nextNotifId)
    simpa using h
  · rw [notifRowsFrom_map_recipient]
  · exact notifRowsFrom_fields sender title message ntype d "all" _ db.nextNotifId
  · simp [send_notification, hread, insertNotifRows_spec]

theorem subscribe_referrals (db : DB) (u p : Nat) (t : ℤ) (a : Nat) :
    ((subscribe_to_plan db u p t a).2).referrals = db.referrals := by
  unfold subscribe_to_plan
  cases get_plan db p <;> rfl

theorem upgrade_referrals (db : DB) (u p : Nat) (t : ℤ) :
    ((upgrade_plan db u p t).2).referrals = db.referrals := by
  unfold upgrade_plan
  cases get_plan db p <;> rfl

theorem sendNotif_referrals (db : DB) (s : Nat) (ti m nt : String)
    (rids : Option (List Nat)) (tt : String) (d : ℤ) :
    ((send_notification db s ti m nt rids tt d).2).referrals = db.referrals := by
  simp only [send_notification]
  by_cases h : (tt == "all") = true
  · rw [if_pos h, insertNotifRows_spec]
  · rw [if_neg h]
    cases rids with
    | none => rfl
    | some l => simp only [insertNotifRows_spec]

theorem referrals_applyOp (db : DB) (op : Op) (r : Referral)
    (h : r ∈ db.referrals) : r ∈ (applyOp db op).referrals := by
  cases op with
  | subscribe u p t a =>
    simp only [applyOp]
    rw [subscribe_referrals]
    exact h
  | upgrade u p t =>
    simp only [applyOp]
    rw [upgrade_referrals]
    exact h
  | createReferral rr e t =>
    simp only [applyOp, create_referral]
    exact List.mem_append_left _ h
  | sendNotif s ti m nt rids tt d =>
    simp only [applyOp]
    rw [sendNotif_referrals]
    exact h
  | markRead n => exact h

theorem referrals_applyOps (ops : List Op) :
    ∀ (db : DB) (r : Referral), r ∈ db.referrals →
      r ∈ (applyOps db ops).referrals := by
  induction ops with
  | nil => intro db r h; exact h
  | cons op rest ih =>
    intro db r h
    exact ih _ _ (referrals_applyOp db op r h)

/-- C9: a referral row, created with its reward amount fixed at creation
time, is never modified by any later engine operation: the very row
(including its `reward_amount`) is still present and is what
`get_user_referrals` reads back after any sequence of operations. -/
theorem referral_reward_immutable (db : DB) (ops : List Op) (r : Referral)
    (h : r ∈ db.referrals) :
    r ∈ (applyOps db ops).referrals ∧
    r ∈ get_user_referrals (applyOps db ops) r.referrer_user_id := by
  have hm := referrals_applyOps ops db r h
  refine ⟨hm, ?_⟩
  unfold get_user_referrals
  exact List.mem_filter.mpr ⟨hm, by simp⟩

theorem referral_reward_immutable_witness :
    exReferral ∈ exDB.referrals ∧
    exReferral ∈ (applyOps exDB exOps9).referrals ∧
    exReferral ∈ get_user_referrals (applyOps exDB exOps9)
      exReferral.referrer_user_id :=
  ⟨by decide, (referral_reward_immutable exDB exOps9 exReferral (by decide)).1,
    (referral_reward_immutable exDB exOps9 exReferral (by decide)).2⟩

theorem length_le_one_eq {α : Type} {l : List α} (h : l.length ≤ 1) {a b : α}
    (ha : a ∈ l) (hb : b ∈ l) : a = b := by
  match l, h with
  | [], _ => exact absurd ha (List.not_mem_nil a)
  | [x], _ =>
    rw [List.mem_singleton.mp ha, List.mem_singleton.mp hb]
  | x :: y :: t, h => simp at h

theorem subscribe_plans (db : DB) (u p : Nat) (t : ℤ) (a : Nat) :
    ((subscribe_to_plan db u p t a).2).plans = db.plans := by
  unfold subscribe_to_plan
  cases get_plan db p <;> rfl

theorem upgrade_plans (db : DB) (u p : Nat) (t : ℤ) :
    ((upgrade_plan db u p t).2).plans = db.plans := by
  unfold upgrade_plan
  cases get_plan db p <;> rfl

theorem sendNotif_subs (db : DB) (s : Nat) (ti m nt : String)
    (rids : Option (List Nat)) (tt : String) (d : ℤ) :
    ((send_notification db s ti m nt rids tt d).2).subscriptions =
      db.subscriptions := by
  simp only [send_notification]
  by_cases h : (tt == "all") = true
  · rw [if_pos h, insertNotifRows_spec]
  · rw [if_neg h]
    cases rids with
    | none => rfl
    | some l => simp only [insertNotifRows_spec]

theorem sendNotif_plans (db : DB) (s : Nat) (ti m nt : String)
    (rids : Option (List Nat)) (tt : String) (d : ℤ) :
    ((send_notification db s ti m nt rids tt d).2).plans = db.plans := by
  simp only [send_notification]
  by_cases h : (tt == "all") = true
  · rw [if_pos h, insertNotifRows_spec]
  · rw [if_neg h]
    cases rids with
    | none => rfl
    | some l => simp only [insertNotifRows_spec]

theorem get_plan_congr {db db' : DB} (h : db'.plans = db.plans) (i : Nat) :
    get_plan db' i = get_plan db i := by
  unfold get_plan
  rw [h]

theorem customerInv_congr {db db' : DB} (uid : Nat)
    (hs : db'.subscriptions = db.subscriptions) (hp : db'.plans = db.plans)
    (h : CustomerInv db uid) : CustomerInv db' uid := by
  unfold CustomerInv activeSubsOf at h ⊢
  rw [hs]
  exact ⟨h.1, fun s hsmem => by rw [get_plan_congr hp]; exact h.2 s hsmem⟩

theorem customerInv_of_parts {db db' : DB} {uid : Nat}
    (hp : db'.plans = db.plans)
    (hlen : (activeSubsOf db' uid).length ≤ 1)
    (hfk : ∀ s ∈ activeSubsOf db' uid, (get_plan db s.plan_id).isSome) :
    CustomerInv db' uid :=
  ⟨hlen, fun s hs => by rw [get_plan_congr hp]; exact hfk s hs⟩

theorem filter_map_congr {α : Type} (p : α → Bool) (f : α → α) (l : List α)
    (h : ∀ a ∈ l, p (f a) = p a ∧ (p a = true → f a = a)) :
    (l.map f).filter p = l.filter p := by
  induction l with
  | nil => rfl
  | cons a t ih =>
    obtain ⟨h1, h2⟩ := h a (List.mem_cons_self a t)
    have ihh := ih (fun b hb => h b (List.mem_cons_of_mem a hb))
    by_cases hp : p a = true
    · rw [List.map_cons, List.filter_cons_of_pos (by rw [h1]; exact hp),
        List.filter_cons_of_pos hp, h2 hp, ihh]
    · have hp' : p a = false := Bool.eq_false_iff.mpr hp
      rw [List.map_cons, List.filter_cons_of_neg (by rw [h1]; exact hp),
        List.filter_cons_of_neg hp, ihh]

theorem filter_map_fix {α : Type} (p : α → Bool) (f : α → α) (l : List α)
    (h : ∀ a, p (f a) = true → f a = a) :
    ((l.map f).filter p).length ≤ (l.filter p).length ∧
      ∀ a ∈ (l.map f).filter p, a ∈ l.filter p := by
  induction l with
  | nil => exact ⟨Nat.le_refl 0, fun a ha => absurd ha (List.not_mem_nil a)⟩
  | cons a t ih =>
    by_cases hp : p (f a) = true
    · have hfa := h a hp
      have hpa : p a = true := by rw [← hfa]; exact hp
      rw [List.map_cons, List.filter_cons_of_pos hp, List.filter_cons_of_pos hpa,
        hfa]
      refine ⟨Nat.succ_le_succ ih.1, fun b hb => ?_⟩
      rcases List.mem_cons.mp hb with hb | hb
      · rw [hb]; exact List.mem_cons_self a _
      · exact List.mem_cons_of_mem a (ih.2 b hb)
    · rw [List.map_cons, List.filter_cons_of_neg hp]
      by_cases hpa : p a = true
      · rw [List.filter_cons_of_pos hpa]
        exact ⟨Nat.le_succ_of_le ih.1,
          fun b hb => List.mem_cons_of_mem a (ih.2 b hb)⟩
      · rw [List.filter_cons_of_neg hpa]
        exact ih

theorem isActive_cancelActiveOf_self (u0 : Nat) (s : Subscription) :
    isActiveOf u0 (cancelActiveOf u0 s) = false := by
  unfold cancelActiveOf isActiveOf
  by_cases hc : (s.user_id == u0 && s.status == "active") = true
  · rw [if_pos hc]
    simp
  · rw [if_neg hc]
    exact Bool.eq_false_iff.mpr hc

theorem isActive_cancelActiveOf_other {uid u0 : Nat} (hne : uid ≠ u0)
    (s : Subscription) :
    isActiveOf uid (cancelActiveOf u0 s) = isActiveOf uid s ∧
      (isActiveOf uid s = true → cancelActiveOf u0 s = s) := by
  unfold cancelActiveOf isActiveOf
  by_cases hc : (s.user_id == u0 && s.status == "active") = true
  · have hu : s.user_id = u0 := by
      have h2 := (Bool.and_eq_true _ _).mp hc
      simpa using h2.1
    rw [if_pos hc]
    constructor
    · show (s.user_id == uid && _) = _
      have huid : (s.user_id == uid) = false := by
        rw [hu]
        exact beq_eq_false_iff_ne.mpr (Ne.symm hne)
      simp [huid]
    · intro habs
      exfalso
      have h3 : s.user_id = uid := by
        simpa using ((Bool.and_eq_true _ _).mp habs).1
      exact hne (by rw [← h3, hu])
  · rw [if_neg hc]
    exact ⟨rfl, fun _ => rfl⟩

theorem cancelById_fix (sid : Nat) (cd : ℤ) (uid : Nat) (s : Subscription)
    (h : isActiveOf uid (cancelById sid cd s) = true) :
    cancelById sid cd s = s := by
  unfold cancelById at h ⊢
  by_cases hc : (s.id == sid) = true
  · rw [if_pos hc] at h
    exfalso
    unfold isActiveOf at h
    simp at h
  · rw [if_neg hc]

theorem foldl_pickLatest_some (l : List ActiveSub) :
    ∀ w : ActiveSub, ∃ v, l.foldl pickLatest (some w) = some v ∧
      (v ∈ l ∨ v = w) := by
  induction l with
  | nil => intro w; exact ⟨w, rfl, Or.inr rfl⟩
  | cons x t ih =>
    intro w
    rw [List.foldl_cons]
    have hred : pickLatest (some w) x =
        if w.start_date < x.start_date then some x else some w := rfl
    rw [hred]
    by_cases hlt : w.start_date < x.start_date
    · rw [if_pos hlt]
      obtain ⟨v, hv, hm⟩ := ih x
      exact ⟨v, hv, hm.elim (fun hh => Or.inl (List.mem_cons_of_mem _ hh))
        (fun hh => Or.inl (hh ▸ List.mem_cons_self _ _))⟩
    · rw [if_neg hlt]
      obtain ⟨v, hv, hm⟩ := ih w
      exact ⟨v, hv, hm.elim (fun hh => Or.inl (List.mem_cons_of_mem _ hh)) Or.inr⟩

theorem gas_some_mem {db : DB} {uid : Nat} {cur : ActiveSub}
    (h : get_user_active_subscription db uid = some cur) :
    cur ∈ activeJoinedRows db uid := by
  unfold get_user_active_subscription at h
  cases hrows : activeJoinedRows db uid with
  | nil =>
    rw [hrows] at h
    exact Option.noConfusion h
  | cons x t =>
    rw [hrows, List.foldl_cons, show pickLatest none x = some x from rfl] at h
    obtain ⟨v, hv, hm⟩ := foldl_pickLatest_some t x
    rw [hv] at h
    obtain rfl : v = cur := Option.some.inj h
    rcases hm with hm | hm
    · exact List.mem_cons_of_mem x hm
    · rw [hm]; exact List.mem_cons_self x t

theorem gas_none_rows {db : DB} {uid : Nat}
    (h : get_user_active_subscription db uid = none) :
    activeJoinedRows db uid = [] := by
  cases hrows : activeJoinedRows db uid with
  | nil => rfl
  | cons x t =>
    exfalso
    unfold get_user_active_subscription at h
    rw [hrows, List.foldl_cons, show pickLatest none x = some x from rfl] at h
    obtain ⟨v, hv, _⟩ := foldl_pickLatest_some t x
    rw [hv] at h
    exact Option.noConfusion h

theorem joined_of_active {db : DB} {uid : Nat} {s : Subscription}
    (hs : s ∈ activeSubsOf db uid) (hfk : (get_plan db s.plan_id).isSome) :
    ∃ v ∈ activeJoinedRows db uid, v.id = s.id := by
  obtain ⟨p, hp⟩ := Option.isSome_iff_exists.mp hfk
  refine ⟨⟨s.id, s.user_id, s.plan_id, s.start_date, s.end_date,
    p.price, p.validity_days⟩, ?_, rfl⟩
  apply List.mem_filterMap.mpr
  exact ⟨s, hs, by unfold joinPlan; rw [hp]; rfl⟩

theorem active_of_joined {db : DB} {uid : Nat} {v : ActiveSub}
    (hv : v ∈ activeJoinedRows db uid) :
    ∃ s ∈ activeSubsOf db uid, v.id = s.id := by
  obtain ⟨s, hs, hj⟩ := List.mem_filterMap.mp hv
  refine ⟨s, hs, ?_⟩
  unfold joinPlan at hj
  obtain ⟨p, hp, hview⟩ := Option.map_eq_some'.mp hj
  rw [← hview]

theorem customerInv_subscribe (db : DB) (uid u0 p0 : Nat) (t : ℤ) (ar : Nat)
    (h : CustomerInv db uid) :
    CustomerInv ((subscribe_to_plan db u0 p0 t ar).2) uid := by
  rcases hgp : get_plan db p0 with _ | plan
  · simpa [subscribe_to_plan, hgp] using h
  · have hplans : ((subscribe_to_plan db u0 p0 t ar).2).plans = db.plans :=
      subscribe_plans db u0 p0 t ar
    have hsubs : ((subscribe_to_plan db u0 p0 t ar).2).subscriptions =
        db.subscriptions.map (cancelActiveOf u0) ++
          [⟨db.nextSubId, u0, p0, t, t + plan.validity_days, "active", ar, none, 0⟩] := by
      simp [subscribe_to_plan, hgp]
    by_cases huid : uid = u0
    · subst huid
      have hnil : (db.subscriptions.map (cancelActiveOf uid)).filter
          (isActiveOf uid) = [] := by
        apply List.filter_eq_nil_iff.mpr
        intro a ha
        obtain ⟨s, _, rfl⟩ := List.mem_map.mp ha
        simp [isActive_cancelActiveOf_self]
      have hone : [(⟨db.nextSubId, uid, p0, t, t + plan.validity_days, "active",
          ar, none, 0⟩ : Subscription)].filter (isActiveOf uid) =
          [⟨db.nextSubId, uid, p0, t, t + plan.validity_days, "active", ar, none, 0⟩] := by
        simp [isActiveOf]
      refine customerInv_of_parts hplans ?_ ?_
      · unfold activeSubsOf
        rw [hsubs, List.filter_append, hnil, hone]
        simp
      · intro s hs
        unfold activeSubsOf at hs
        rw [hsubs, List.filter_append, hnil, hone] at hs
        obtain rfl := List.mem_singleton.mp (by simpa using hs)
        show (get_plan db p0).isSome
        rw [hgp]
        rfl
    · have hkeep : (db.subscriptions.map (cancelActiveOf u0)).filter
          (isActiveOf uid) = db.subscriptions.filter (isActiveOf uid) :=
        filter_map_congr _ _ _
          (fun a _ => isActive_cancelActiveOf_other huid a)
      have hnone : [(⟨db.nextSubId, u0, p0, t, t + plan.validity_days, "active",
          ar, none, 0⟩ : Subscription)].filter (isActiveOf uid) = [] := by
        simp [isActiveOf, Ne.symm huid]
      refine customerInv_of_parts hplans ?_ ?_
      · unfold activeSubsOf
        rw [hsubs, List.filter_append, hkeep, hnone, List.append_nil]
        exact h.1
      · intro s hs
        unfold activeSubsOf at hs
        rw [hsubs, List.filter_append, hkeep, hnone, List.append_nil] at hs
        exact h.2 s hs

theorem customerInv_upgrade (db : DB) (uid u0 p0 : Nat) (t : ℤ)
    (h : CustomerInv db uid) :
    CustomerInv ((upgrade_plan db u0 p0 t).2) uid := by
  rcases hgp : get_plan db p0 with _ | plan
  · simpa [upgrade_plan, hgp] using h
  · have hplans : ((upgrade_plan db u0 p0 t).2).plans = db.plans :=
      upgrade_plans db u0 p0 t
    rcases hcur : get_user_active_subscription db u0 with _ | cur
    · -- no joined active row: nothing is cancelled, one row is inserted
      have hsubs : ((upgrade_plan db u0 p0 t).2).subscriptions =
          db.subscriptions ++
            [⟨db.nextSubId, u0, p0, t, t + plan.validity_days, "active", 1, none, 0⟩] := by
        simp [upgrade_plan, hgp, hcur]
      by_cases huid : uid = u0
      · subst huid
        have hnil : db.subscriptions.filter (isActiveOf uid) = [] := by
          cases hact : db.subscriptions.filter (isActiveOf uid) with
          | nil => rfl
          | cons s rest =>
            exfalso
            have hs : s ∈ activeSubsOf db uid := by
              unfold activeSubsOf
              rw [hact]
              exact List.mem_cons_self s rest
            obtain ⟨v, hv, _⟩ := joined_of_active hs (h.2 s hs)
            rw [gas_none_rows hcur] at hv
            exact List.not_mem_nil v hv
        refine customerInv_of_parts hplans ?_ ?_
        · unfold activeSubsOf
          rw [hsubs, List.filter_append, hnil]
          simp [isActiveOf]
        · intro s hs
          unfold activeSubsOf at hs
          rw [hsubs, List.filter_append, hnil] at hs
          have hmem : s ∈ [(⟨db.nextSubId, uid, p0, t, t + plan.validity_days,
              "active", 1, none, 0⟩ : Subscription)] := by
            simpa [isActiveOf] using hs
          obtain rfl := List.mem_singleton.mp hmem
          show (get_plan db p0).isSome
          rw [hgp]
          rfl
      · have hnone : [(⟨db.nextSubId, u0, p0, t, t + plan.validity_days,
            "active", 1, none, 0⟩ : Subscription)].filter (isActiveOf uid) = [] := by
          simp [isActiveOf, Ne.symm huid]
        refine customerInv_of_parts hplans ?_ ?_
        · unfold activeSubsOf
          rw [hsubs, List.filter_append, hnone, List.append_nil]
          exact h.1
        · intro s hs
          unfold activeSubsOf at hs
          rw [hsubs, List.filter_append, hnone, List.append_nil] at hs
          exact h.2 s hs
    · -- a joined active row exists: it is cancelled by id, one row inserted
      have hsubs : ((upgrade_plan db u0 p0 t).2).subscriptions =
          db.subscriptions.map (cancelById cur.id t) ++
            [⟨db.nextSubId, u0, p0, t,
              if 0 < cur.end_date - t then t + (cur.end_date - t)
              else t + plan.validity_days, "active", 1, none, 0⟩] := by
        simp [upgrade_plan, hgp, hcur]
      by_cases huid : uid = u0
      · subst huid
        obtain ⟨s0, hs0, hid⟩ := active_of_joined (gas_some_mem hcur)
        have hkey : ∀ s ∈ db.subscriptions, isActiveOf uid s = true →
            s.id = cur.id := by
          intro s hsmem hsact
          have hs : s ∈ activeSubsOf db uid :=
            List.mem_filter.mpr ⟨hsmem, hsact⟩
          rw [hid, length_le_one_eq h.1 hs hs0]
        have hnil : (db.subscriptions.map (cancelById cur.id t)).filter
            (isActiveOf uid) = [] := by
          apply List.filter_eq_nil_iff.mpr
          intro a ha
          obtain ⟨s, hsmem, rfl⟩ := List.mem_map.mp ha
          by_cases hact : isActiveOf uid s = true
          · have hsid := hkey s hsmem hact
            unfold cancelById
            rw [if_pos (beq_iff_eq.mpr hsid)]
            unfold isActiveOf
            simp
          · by_cases hcid : (s.id == cur.id) = true
            · unfold cancelById
              rw [if_pos hcid]
              unfold isActiveOf
              simp
            · unfold cancelById
              rw [if_neg hcid]
              exact hact
        refine customerInv_of_parts hplans ?_ ?_
        · unfold activeSubsOf
          rw [hsubs, List.filter_append, hnil]
          simp [isActiveOf]
        · intro s hs
          unfold activeSubsOf at hs
          rw [hsubs, List.filter_append, hnil] at hs
          have hmem : s ∈ [(⟨db.nextSubId, uid, p0, t,
              if 0 < cur.end_date - t then t + (cur.end_date - t)
              else t + plan.validity_days, "active", 1, none, 0⟩ : Subscription)] := by
            simpa [isActiveOf] using hs
          obtain rfl := List.mem_singleton.mp hmem
          show (get_plan db p0).isSome
          rw [hgp]
          rfl
      · obtain ⟨hle, hsub⟩ := filter_map_fix (isActiveOf uid) (cancelById cur.id t)
          db.subscriptions (cancelById_fix cur.id t uid)
        have hnone : [(⟨db.nextSubId, u0, p0, t,
            if 0 < cur.end_date - t then t + (cur.end_date - t)
            else t + plan.validity_days, "active", 1, none, 0⟩ : Subscription)].filter
            (isActiveOf uid) = [] := by
          simp [isActiveOf, Ne.symm huid]
        refine customerInv_of_parts hplans ?_ ?_
        · unfold activeSubsOf
          rw [hsubs, List.filter_append, hnone, List.append_nil]
          exact le_trans hle h.1
        · intro s hs
          unfold activeSubsOf at hs
          rw [hsubs, List.filter_append, hnone, List.append_nil] at hs
          exact h.2 s (hsub s hs)

theorem customerInv_applyOp (db : DB) (uid : Nat) (op : Op)
    (h : CustomerInv db uid) : CustomerInv (applyOp db op) uid := by
  cases op with
  | subscribe u p t a => exact customerInv_subscribe db uid u p t a h
  | upgrade u p t => exact customerInv_upgrade db uid u p t h
  | createReferral rr e t => exact customerInv_congr uid rfl rfl h
  | sendNotif s ti m nt rids tt d =>
    exact customerInv_congr uid (sendNotif_subs db s ti m nt rids tt d)
      (sendNotif_plans db s ti m nt rids tt d) h
  | markRead n => exact customerInv_congr uid rfl rfl h

theorem customerInv_applyOps (ops : List Op) :
    ∀ (db : DB) (uid : Nat), CustomerInv db uid →
      CustomerInv (applyOps db ops) uid := by
  induction ops with
  | nil => intro db uid h; exact h
  | cons op rest ih =>
    intro db uid h
    exact ih _ _ (customerInv_applyOp db uid op h)

/-- C1: for any customer whose store satisfies the per-customer
invariant (at most one `active` subscription row, each resolving its
plan per the schema's foreign key), any finite sequence of
`subscribe_to_plan` and `upgrade_plan` calls — or of any other engine
calls — leaves the customer with at most one `active` subscription. -/
theorem at_most_one_active_subscription (db : DB) (uid : Nat) (ops : List Op)
    (h : CustomerInv db uid) :
    (activeSubsOf (applyOps db ops) uid).length ≤ 1 :=
  (customerInv_applyOps ops db uid h).1

theorem at_most_one_active_subscription_witness :
    CustomerInv exDB2 1 ∧
    (activeSubsOf (applyOps exDB2 exOps) 1).length ≤ 1 :=
  ⟨by decide, at_most_one_active_subscription exDB2 1 exOps (by decide)⟩

end Broadband
